import Mathlib

/-!
Verification of the evidence pipeline of edu-video-factory (cfa_factory).

This file shallowly embeds the deterministic parts of the pipeline:
  * tools/chunker.py      — chunk ids, the assisted (LLM) chunk builder's
    post-processing, and the heuristic window segmenter;
  * tools/retrieval.py    — reading-id alias normalization, chunk loading for
    a reading, and the per-document → unified index query fallback;
  * tools/index_store.py  — batched embedding with the 768-dimension guard and
    the index build's engine-call sequence;
  * tools/reading_map_builder.py — de-duplication, ordering and closing of
    reading page intervals, and the keyed reading-map merge.

External collaborators (the generative model, the embedding service, the
vector index engine, the filesystem) are modelled as explicit function
parameters or input data; all arithmetic is on Nat/Int (Python ints), with
string hashing embedded as an executable SHA-1 over UTF-8 bytes, exactly as
hashlib.sha1(text.encode("utf-8")).hexdigest() does.
-/

/-! ## Python string primitives -/

/-- ASCII lower-casing of one character, as str.lower() acts on ASCII input. -/
def asciiLowerChar (c : Char) : Char :=
  if 'A' ≤ c ∧ c ≤ 'Z' then Char.ofNat (c.toNat + 32) else c

/-- str.lower() (ASCII range; non-ASCII characters are left unchanged). -/
def pyLower (s : List Char) : List Char := s.map asciiLowerChar

/-- Whitespace test used by str.strip(). -/
def isPySpace (c : Char) : Bool := c.isWhitespace

/-- str.strip(): remove leading and trailing whitespace. -/
def pyStrip (s : List Char) : List Char :=
  ((s.dropWhile isPySpace).reverse.dropWhile isPySpace).reverse

/-- Does the pattern occur in s starting exactly at index i? -/
def matchAt (s pat : List Char) (i : Nat) : Bool :=
  pat.isPrefixOf (s.drop i)

/-- Helper for str.rfind: scan candidate start positions i, i-1, ..., 0. -/
def pyRfindAux (s pat : List Char) : Nat → Int
  | 0 => if matchAt s pat 0 then 0 else -1
  | i + 1 => if matchAt s pat (i + 1) then ((i + 1 : Nat) : Int) else pyRfindAux s pat i

/-- str.rfind(pat): highest index at which pat occurs, or -1. -/
def pyRfind (s pat : List Char) : Int := pyRfindAux s pat s.length

/-- Python's substring containment test (`sub in s`). -/
def pyContains (s sub : List Char) : Bool :=
  (List.range (s.length + 1)).any (fun i => matchAt s sub i)

/-- str.endswith(suffix). -/
def pyEndsWith (s suffix : List Char) : Bool := suffix.isSuffixOf s

/-! ## SHA-1 over UTF-8 bytes (hashlib.sha1(...).hexdigest()) -/

/-- UTF-8 encoding of one character, as bytes (Nat < 256). -/
def utf8Bytes (c : Char) : List Nat :=
  let n := c.toNat
  if n < 128 then [n]
  else if n < 2048 then
    [192 + (n >>> 6), 128 + (n &&& 63)]
  else if n < 65536 then
    [224 + (n >>> 12), 128 + ((n >>> 6) &&& 63), 128 + (n &&& 63)]
  else
    [240 + (n >>> 18), 128 + ((n >>> 12) &&& 63), 128 + ((n >>> 6) &&& 63), 128 + (n &&& 63)]

/-- UTF-8 bytes of a string (str.encode("utf-8")). -/
def strBytes (s : String) : List Nat := (s.data.map utf8Bytes).flatten

/-- Rotate a 32-bit word left by n bits. -/
def rotl32 (n x : Nat) : Nat :=
  ((x <<< n) % 4294967296) ||| (x >>> (32 - n))

/-- Big-endian 8-byte encoding of a length in bits. -/
def be64 (n : Nat) : List Nat :=
  [(n >>> 56) % 256, (n >>> 48) % 256, (n >>> 40) % 256, (n >>> 32) % 256,
   (n >>> 24) % 256, (n >>> 16) % 256, (n >>> 8) % 256, n % 256]

/-- SHA-1 message padding: 0x80, zeros to 56 mod 64, then the bit length. -/
def sha1Pad (msg : List Nat) : List Nat :=
  let l := msg.length
  let z := (64 - ((l + 9) % 64)) % 64
  msg ++ 128 :: List.replicate z 0 ++ be64 (8 * l)

/-- Group bytes into big-endian 32-bit words. -/
def toWords : List Nat → List Nat
  | b0 :: b1 :: b2 :: b3 :: rest => (((b0 * 256 + b1) * 256 + b2) * 256 + b3) :: toWords rest
  | _ => []

/-- Split a list into consecutive groups of k (fuelled; fuel bounds the
number of groups produced). -/
def chunksOfAux (k : Nat) : Nat → List α → List (List α)
  | _, [] => []
  | 0, _ :: _ => []
  | fuel + 1, x :: xs => (x :: xs).take k :: chunksOfAux k fuel ((x :: xs).drop k)

/-- Split a list into consecutive groups of k elements. -/
def chunksOf (k : Nat) (xs : List α) : List (List α) := chunksOfAux k xs.length xs

/-- The five 32-bit working registers / chaining values of SHA-1. -/
structure Sha1State where
  a : Nat
  b : Nat
  c : Nat
  d : Nat
  e : Nat
deriving Repr, DecidableEq

/-- Expand a 16-word block into the 80-word message schedule. -/
def sha1Schedule (w16 : List Nat) : Array Nat :=
  (List.range 64).foldl
    (fun w _ =>
      w.push (rotl32 1 ((w.getD (w.size - 3) 0) ^^^ (w.getD (w.size - 8) 0) ^^^
                        (w.getD (w.size - 14) 0) ^^^ (w.getD (w.size - 16) 0))))
    w16.toArray

/-- One of the 80 SHA-1 rounds. -/
def sha1Round (st : Sha1State) (i w : Nat) : Sha1State :=
  let f :=
    if i < 20 then (st.b &&& st.c) ||| ((st.b ^^^ 4294967295) &&& st.d)
    else if i < 40 then st.b ^^^ st.c ^^^ st.d
    else if i < 60 then (st.b &&& st.c) ||| (st.b &&& st.d) ||| (st.c &&& st.d)
    else st.b ^^^ st.c ^^^ st.d
  let k :=
    if i < 20 then 1518500249
    else if i < 40 then 1859775393
    else if i < 60 then 2400959708
    else 3395469782
  { a := (rotl32 5 st.a + f + st.e + k + w) % 4294967296
    b := st.a
    c := rotl32 30 st.b
    d := st.c
    e := st.d }

/-- Compress one 512-bit block into the chaining state. -/
def sha1Compress (h : Sha1State) (w16 : List Nat) : Sha1State :=
  let ws := sha1Schedule w16
  let f := (List.range 80).foldl (fun st i => sha1Round st i (ws.getD i 0)) h
  { a := (h.a + f.a) % 4294967296
    b := (h.b + f.b) % 4294967296
    c := (h.c + f.c) % 4294967296
    d := (h.d + f.d) % 4294967296
    e := (h.e + f.e) % 4294967296 }

/-- SHA-1 initial chaining value. -/
def sha1Init : Sha1State :=
  { a := 1732584193, b := 4023233417, c := 2562383102, d := 271733878, e := 3285377520 }

/-- SHA-1 digest (as five words) of a byte sequence. -/
def sha1Digest (msg : List Nat) : Sha1State :=
  (chunksOf 16 (toWords (sha1Pad msg))).foldl sha1Compress sha1Init

/-- One lowercase hexadecimal digit. -/
def hexDigitChar (n : Nat) : Char :=
  if n < 10 then Char.ofNat (48 + n) else Char.ofNat (87 + n)

/-- Eight-digit lowercase hex of a 32-bit word. -/
def hex8 (n : Nat) : List Char :=
  (List.range 8).map (fun i => hexDigitChar ((n >>> (28 - 4 * i)) &&& 15))

/-- Lowercase hex digest of a byte sequence (hexdigest()). -/
def sha1HexBytes (msg : List Nat) : String :=
  let st := sha1Digest msg
  String.mk (hex8 st.a ++ hex8 st.b ++ hex8 st.c ++ hex8 st.d ++ hex8 st.e)

/-- chunker._sha1: hashlib.sha1(text.encode("utf-8")).hexdigest(). -/
def pySha1 (text : String) : String := sha1HexBytes (strBytes text)

/-! ## Data model (schemas/models.py) -/

/-- models.Span: character offsets locating content inside a page's text. -/
structure Span where
  start_char : Nat
  end_char : Nat
  start_line : Option Int := none
  end_line : Option Int := none
deriving Repr, DecidableEq, Inhabited

/-- models.Chunk. Float-valued layout fields (bbox, page_size) are modelled
with Rat; the opaque dict payloads extracted_struct / quiz_ref, which no
embedded code path ever populates, are modelled as Option Unit. -/
structure Chunk where
  schema_version : String := "v1"
  chunk_id : String
  doc_id : String
  kind : String
  page : Nat
  reading_id : Option String := none
  section_path : List String := []
  content_type : String := "text"
  content : String
  span : Span
  content_hash : String
  source_path : Option String := none
  image_ref : Option String := none
  extracted_struct : Option Unit := none
  no_cut : Bool := false
  quiz_ref : Option Unit := none
  bbox : Option (List Rat) := none
  page_size : Option (List Rat) := none
  block_ids : Option (List Nat) := none
  image_block_ids : Option (List Nat) := none
  image_bboxes : Option (List (List Rat)) := none
deriving Repr, DecidableEq, Inhabited

/-- models.RetrievalHit (score is a float in the source; modelled as Rat). -/
structure RetrievalHit where
  chunk_id : String
  doc_id : String
  page : Int
  score : Rat
  snippet : String
deriving Repr, DecidableEq, Inhabited

/-- models.TopKQuery. -/
structure TopKQuery where
  query : String
  k : Nat
  hits : List RetrievalHit
deriving Repr, DecidableEq, Inhabited

/-! ## chunker.py: chunk ids and the assisted (LLM) chunk builder -/

/-- chunker._stable_chunk_id: sha1 of "doc|p<page>|<start>-<end>|<hash>". -/
def stableChunkId (docId : String) (page : Nat) (startChar endChar : Nat)
    (contentHash : String) : String :=
  pySha1 (docId ++ "|p" ++ toString page ++ "|" ++ toString startChar ++ "-" ++
          toString endChar ++ "|" ++ contentHash)

/-- chunker._stable_chunk_id_blocks: sha1 of
"doc|p<page>|blocks:<comma-joined ids>|<hash>". The ids are joined in the
order given — the source performs no sorting. -/
def stableChunkIdBlocks (docId : String) (page : Nat) (blockIds : List Nat)
    (contentHash : String) : String :=
  pySha1 (docId ++ "|p" ++ toString page ++ "|blocks:" ++
          String.intercalate "," (blockIds.map toString) ++ "|" ++ contentHash)

/-- One span of a text line of a page.get_text("dict") block. -/
structure PdfSpanRec where
  text : String
deriving Repr, DecidableEq, Inhabited

/-- One line of a page.get_text("dict") block. -/
structure PdfLineRec where
  spans : List PdfSpanRec
deriving Repr, DecidableEq, Inhabited

/-- One block of page.get_text("dict"): btype is the "type" key
(0 = text, 1 = image). -/
structure PdfBlockRec where
  btype : Nat
  bbox : Option (List Rat) := none
  lines : List PdfLineRec := []
deriving Repr, DecidableEq, Inhabited

/-- chunker._extract_text_from_block: the stripped non-empty span texts,
joined with single spaces, stripped. -/
def extractTextFromBlock (b : PdfBlockRec) : List Char :=
  let texts := ((b.lines.map (fun ln => ln.spans.map (fun sp => pyStrip sp.text.data))).flatten).filter
    (fun t => t ≠ [])
  pyStrip (List.intercalate [' '] texts)

/-- chunker._compute_bbox_union: componentwise min/max over [x0, y0, x1, y1]. -/
def computeBboxUnion (bboxes : List (List Rat)) : Option (List Rat) :=
  match bboxes with
  | [] => none
  | b :: bs =>
    some [bs.foldl (fun m bb => min m (bb.getD 0 0)) (b.getD 0 0),
          bs.foldl (fun m bb => min m (bb.getD 1 0)) (b.getD 1 0),
          bs.foldl (fun m bb => max m (bb.getD 2 0)) (b.getD 2 0),
          bs.foldl (fun m bb => max m (bb.getD 3 0)) (b.getD 3 0)]

/-- chunker.LlmChunkSpec: one proposed chunk from the block-classification
collaborator. content_type is constrained by the response schema to
text / table / formula / figure. -/
structure LlmChunkSpec where
  block_ids : List Int
  image_block_ids : List Int := []
  content_type : String
  section_path : List String := []
  no_cut : Bool := false
deriving Repr, DecidableEq, Inhabited

/-- chunker.LlmPageSpec: the collaborator's whole-page response. -/
structure LlmPageSpec where
  chunks : List LlmChunkSpec
deriving Repr, DecidableEq, Inhabited

/-- The numbered text-block dicts built at the top of _page_to_chunks_llm. -/
structure TextBlock where
  id : Nat
  bbox : Option (List Rat)
  text : List Char
deriving Repr, DecidableEq, Inhabited

/-- The numbered image-block dicts built at the top of _page_to_chunks_llm. -/
structure ImageBlock where
  id : Nat
  bbox : Option (List Rat)
deriving Repr, DecidableEq, Inhabited

/-- Text blocks of a page: type-0 blocks with non-empty extracted text,
numbered consecutively. -/
def buildTextBlocks (blocks : List PdfBlockRec) : List TextBlock :=
  blocks.foldl
    (fun acc b =>
      if b.btype = 0 then
        let t := extractTextFromBlock b
        if t ≠ [] then acc ++ [{ id := acc.length, bbox := b.bbox, text := t }] else acc
      else acc)
    []

/-- Image blocks of a page: type-1 blocks, numbered consecutively. -/
def buildImageBlocks (blocks : List PdfBlockRec) : List ImageBlock :=
  blocks.foldl
    (fun acc b => if b.btype = 1 then acc ++ [{ id := acc.length, bbox := b.bbox }] else acc)
    []

/-- The per-proposal body of the loop of _page_to_chunks_llm: validate and
filter the proposed block ids, assemble and length-check the content, and
build the Chunk; none models the loop's continue. -/
def llmSpecToChunk (docId kind sourcePath : String) (pageNum : Nat)
    (textBlocks : List TextBlock) (imageBlocks : List ImageBlock) (pageSize : List Rat)
    (readingId : Option String) (minChunkChars : Nat) (spec : LlmChunkSpec) :
    Option Chunk :=
  let blockIds := (spec.block_ids.filter
    (fun bid => 0 ≤ bid && bid < (textBlocks.length : Int))).map Int.toNat
  if blockIds = [] then none
  else
    let textParts := blockIds.map (fun i => (textBlocks.getD i default).text)
    let content := pyStrip (List.intercalate ['\n'] (textParts.filter (fun t => t ≠ [])))
    if content = [] ∨ content.length < minChunkChars then none
    else
      let contentHash := pySha1 (String.mk content)
      let chunkId := stableChunkIdBlocks docId pageNum blockIds contentHash
      let textBboxes := blockIds.filterMap (fun i =>
        match (textBlocks.getD i default).bbox with
        | some l => if l ≠ [] then some l else none
        | none => none)
      let imageIds := (spec.image_block_ids.filter
        (fun iid => 0 ≤ iid && iid < (imageBlocks.length : Int))).map Int.toNat
      let imageBboxes := imageIds.filterMap (fun i =>
        match (imageBlocks.getD i default).bbox with
        | some l => if l ≠ [] then some l else none
        | none => none)
      let bbox := computeBboxUnion (textBboxes ++ imageBboxes)
      let sectionPath :=
        (match readingId with | some r => [r] | none => []) ++
        spec.section_path.filter (fun it => it ≠ "" && some it ≠ readingId)
      let contentType := spec.content_type
      let noCut := spec.no_cut ||
        (contentType = "table" || contentType = "formula" || contentType = "figure")
      some { chunk_id := chunkId
             doc_id := docId
             kind := kind
             page := pageNum
             reading_id := readingId
             section_path := sectionPath
             content_type := contentType
             content := String.mk content
             span := { start_char := 0, end_char := content.length }
             content_hash := contentHash
             source_path := some sourcePath
             no_cut := noCut
             bbox := bbox
             page_size := some pageSize
             block_ids := some blockIds
             image_block_ids := some imageIds
             image_bboxes := if imageBboxes = [] then none else some imageBboxes }

/-- chunker._page_to_chunks_llm, from the structural block list. The
collaborator call is modelled by llmResp: none stands for a failed call or
an empty parsed response (both return [] in the source); some spec is a
parsed response. The source returns [] before calling the collaborator when
the page has no text and no image blocks. -/
def pageToChunksLlm (docId kind sourcePath : String) (pageNum : Nat)
    (blocks : List PdfBlockRec) (pageSize : List Rat) (readingId : Option String)
    (minChunkChars : Nat) (llmResp : Option LlmPageSpec) : List Chunk :=
  let textBlocks := buildTextBlocks blocks
  let imageBlocks := buildImageBlocks blocks
  if textBlocks.isEmpty && imageBlocks.isEmpty then []
  else
    match llmResp with
    | none => []
    | some parsed =>
      parsed.chunks.filterMap
        (llmSpecToChunk docId kind sourcePath pageNum textBlocks imageBlocks pageSize
          readingId minChunkChars)

/-! ## chunker.py: the heuristic fallback segmenter (_page_to_chunks) -/

/-- Word character for the \x5cb word-boundary test (ASCII \x5cw). -/
def isWordChar (c : Char) : Bool := c.isAlphanum || c = '_'

/-- re word boundary at position i of s. -/
def atWordBoundary (s : List Char) (i : Nat) : Bool :=
  let prevWord := match i with
    | 0 => false
    | j + 1 => match s[j]? with | some c => isWordChar c | none => false
  let curWord := match s[i]? with | some c => isWordChar c | none => false
  prevWord != curWord

/-- Case-insensitive literal match of pat (given lowercase) at position i. -/
def takeIC (s : List Char) (i : Nat) (pat : List Char) : Bool :=
  pat.isPrefixOf (pyLower (s.drop i))

/-- Greedy one-or-more run of characters satisfying p from position i;
returns the position after the run if it is non-empty. -/
def plusRun (p : Char → Bool) (s : List Char) (i : Nat) : Option Nat :=
  let n := ((s.drop i).takeWhile p).length
  if n = 0 then none else some (i + n)

/-- Match of the pattern LOS\x20\x5cs+\x5cd+(?:\x5c.[a-z])? between word
boundaries at position i (IGNORECASE), as the first marker pattern;
returns the match length. The optional suffix backtracks to the bare
number when no word boundary follows it. -/
def matchLosAt (s : List Char) (i : Nat) : Option Nat :=
  if atWordBoundary s i && takeIC s i "los".data then
    match plusRun isPySpace s (i + 3) with
    | none => none
    | some j =>
      match plusRun Char.isDigit s j with
      | none => none
      | some m =>
        if (s[m]? == some '.') &&
           (match s[m + 1]? with | some c => c.isAlpha | none => false) &&
           atWordBoundary s (m + 2) then
          some (m + 2 - i)
        else if atWordBoundary s m then some (m - i)
        else none
  else none

/-- Match of `Learning Outcome Statement` with an optional plural `s`
between word boundaries at position i (IGNORECASE); returns the match
length. -/
def matchLearningOutcomeAt (s : List Char) (i : Nat) : Option Nat :=
  if atWordBoundary s i && takeIC s i "learning outcome statement".data then
    let m := i + 26
    if (match s[m]? with | some c => asciiLowerChar c == 's' | none => false) then
      if atWordBoundary s (m + 1) then some (m + 1 - i)
      else if atWordBoundary s m then some (m - i)
      else none
    else if atWordBoundary s m then some (m - i)
    else none
  else none

/-- Match of a literal word, one-or-more spaces, and a number between word
boundaries at position i (IGNORECASE) — the Example / Exhibit patterns;
returns the match length. -/
def matchWordNumAt (word : List Char) (s : List Char) (i : Nat) : Option Nat :=
  if atWordBoundary s i && takeIC s i word then
    match plusRun isPySpace s (i + word.length) with
    | none => none
    | some j =>
      match plusRun Char.isDigit s j with
      | none => none
      | some m => if atWordBoundary s m then some (m - i) else none
  else none

/-- Match of a bare literal between word boundaries at position i
(IGNORECASE) — the Summary / Key Concepts patterns; returns the match
length. -/
def matchLiteralAt (word : List Char) (s : List Char) (i : Nat) : Option Nat :=
  if atWordBoundary s i && takeIC s i word && atWordBoundary s (i + word.length) then
    some word.length
  else none

/-- re.search: the leftmost position admitting a match, with its length. -/
def reSearch (m : List Char → Nat → Option Nat) (s : List Char) : Option (Nat × Nat) :=
  (List.range (s.length + 1)).findSome? (fun i => (m s i).map (fun l => (i, l)))

/-- The V1 coarse section-marker detection of _page_to_chunks: the six
marker patterns tried in order; for the Example / Exhibit / LOS labels the
matched text itself is the marker, for Summary / Key Concepts the label. -/
def sectionMarkerOf (content : List Char) : Option (List Char) :=
  match reSearch matchLosAt content with
  | some (i, l) => some ((content.drop i).take l)
  | none =>
  match reSearch matchLearningOutcomeAt content with
  | some (i, l) => some ((content.drop i).take l)
  | none =>
  match reSearch (matchWordNumAt "example".data) content with
  | some (i, l) => some ((content.drop i).take l)
  | none =>
  match reSearch (matchWordNumAt "exhibit".data) content with
  | some (i, l) => some ((content.drop i).take l)
  | none =>
  match reSearch (matchLiteralAt "summary".data) content with
  | some _ => some "Summary".data
  | none =>
  match reSearch (matchLiteralAt "key concepts".data) content with
  | some _ => some "Key Concepts".data
  | none => none

/-- The V1 no_cut trigger substrings of _page_to_chunks. -/
def noCutTriggers : List (List Char) :=
  ["exhibit".data, "table ".data, "figure ".data,
   "question".data, "solution".data, "example".data,
   "step 1".data, "step 2".data, "therefore".data, "derive".data]

/-- The V1 no_cut heuristic of _page_to_chunks: a trigger substring in the
lower-cased content, or a short chunk ending with a colon. -/
def heuristicNoCut (content : List Char) : Bool :=
  let lower := pyLower content
  noCutTriggers.any (fun t => pyContains lower t) ||
  (pyEndsWith content [':'] && content.length < 200)

/-- The cut candidate of _page_to_chunks: the max of the rfind results for
newline, ". ", the CJK full stop, and "; " over the window (-1 when none
occurs). -/
def lastCut (w : List Char) : Int :=
  max (max (max (pyRfind w "\n".data) (pyRfind w ". ".data))
           (pyRfind w "。".data))
      (pyRfind w "; ".data)

/-- Does one of the four boundary patterns of _page_to_chunks occur at
position p of the window? -/
def qualAt (w : List Char) (p : Nat) : Bool :=
  matchAt w "\n".data p || matchAt w ". ".data p ||
  matchAt w "。".data p || matchAt w "; ".data p

/-- The window-closing rule of _page_to_chunks (its lines 249-254): the raw
end is start + target capped at the text length; the cut candidate is
accepted only when it exceeds 500. -/
def windowEnd (text : List Char) (start target : Nat) : Nat :=
  let e0 := min text.length (start + target)
  let w := (text.drop start).take (e0 - start)
  let cut := lastCut w
  if 500 < cut then start + cut.toNat else e0

/-- The chunk value appended by one iteration of the _page_to_chunks loop
for the stripped window content. -/
def mkHeuristicChunk (docId kind sourcePath : String) (pageNum : Nat)
    (readingId : Option String) (startChar endChar : Nat) (content : List Char) : Chunk :=
  let contentHash := pySha1 (String.mk content)
  let chunkId := stableChunkId docId pageNum startChar endChar contentHash
  let sectionPath :=
    (match readingId with | some r => [r] | none => []) ++
    (match sectionMarkerOf content with | some m => [String.mk m] | none => [])
  { chunk_id := chunkId
    doc_id := docId
    kind := kind
    page := pageNum
    reading_id := readingId
    section_path := sectionPath
    content_type := "text"
    content := String.mk content
    span := { start_char := startChar, end_char := endChar }
    content_hash := contentHash
    source_path := some sourcePath
    no_cut := heuristicNoCut content }

/-- The accumulator update of one _page_to_chunks iteration: skip the
window when its stripped content is shorter than the minimum (the loop's
continue), append the built chunk when the content is non-empty, otherwise
leave the accumulator unchanged. -/
def pageToChunksStep (docId kind sourcePath : String) (pageNum : Nat)
    (readingId : Option String) (minChunkChars : Nat) (startChar endChar : Nat)
    (content : List Char) (acc : List Chunk) : List Chunk :=
  if content.length < minChunkChars then acc
  else if content ≠ [] then
    mkHeuristicChunk docId kind sourcePath pageNum readingId startChar endChar content :: acc
  else acc

/-- The while loop of _page_to_chunks, fuelled: one fuel unit per
iteration; every iteration closes the window at windowEnd, updates the
accumulator through pageToChunksStep, and advances start to the window
end. none models running out of fuel with the loop still open (the source
loop would keep iterating). -/
def pageToChunksLoop (docId kind sourcePath : String) (pageNum : Nat)
    (readingId : Option String) (text : List Char) (target minChunkChars : Nat) :
    Nat → Nat → List Chunk → Option (List Chunk)
  | 0, start, acc => if start < text.length then none else some acc.reverse
  | fuel + 1, start, acc =>
    if start < text.length then
      pageToChunksLoop docId kind sourcePath pageNum readingId text target minChunkChars
        fuel (windowEnd text start target)
        (pageToChunksStep docId kind sourcePath pageNum readingId minChunkChars start
          (windowEnd text start target)
          (pyStrip ((text.drop start).take (windowEnd text start target - start))) acc)
    else some acc.reverse

/-- chunker._page_to_chunks: strip the page text, then slide the cut
window; fuelled with the text length, which suffices whenever the target
window size is at least one character. -/
def pageToChunks (docId kind sourcePath : String) (pageNum : Nat) (pageText : String)
    (readingId : Option String) (targetChunkChars minChunkChars : Nat) :
    Option (List Chunk) :=
  let text := pyStrip pageText.data
  if text = [] then some []
  else pageToChunksLoop docId kind sourcePath pageNum readingId text
    targetChunkChars minChunkChars text.length 0 []

/-! ## chunker.py: the per-page strategy driver (_process_page) -/

/-- The per-page payload assembled by build_chunks_for_doc before
dispatching to _process_page; blocks is page_dict["blocks"]. -/
structure PagePayload where
  page_num : Nat
  text : String
  reading_id : Option String
  blocks : List PdfBlockRec
  page_size : List Rat
  needs_vision : Bool
  complex_page : Bool
deriving Repr, DecidableEq, Inhabited

/-- chunker._process_page. The block-classification collaborator is
modelled by llmResp, mapping the model name passed to _page_to_chunks_llm
to its parsed response. The second component of the result records the
model names with which _page_to_chunks_llm was invoked, in order (the
observable assisted-strategy attempts). The first component is none only
when the heuristic loop runs out of fuel, which cannot happen for a
positive target (see the termination theorem). -/
def processPage (docId kind pdfPath : String) (useLlm : Bool) (llmMode : String)
    (llmModel : String) (llmModelComplex : Option String)
    (targetChunkChars minChunkChars : Nat)
    (llmResp : String → Option LlmPageSpec)
    (payload : PagePayload) : Option (Nat × List Chunk) × List String :=
  let hasBlocks := payload.blocks ≠ []
  let useLlmPage := useLlm &&
    (llmMode == "all" || (llmMode == "vision-only" && payload.needs_vision))
  let modelForPage := match llmModelComplex with
    | some m => if m ≠ "" && payload.complex_page then m else llmModel
    | none => llmModel
  let llmOutcome :=
    if useLlmPage then
      let first := pageToChunksLlm docId kind pdfPath payload.page_num payload.blocks
        payload.page_size payload.reading_id minChunkChars (llmResp modelForPage)
      if first = [] && hasBlocks && modelForPage ≠ llmModel then
        (pageToChunksLlm docId kind pdfPath payload.page_num payload.blocks
           payload.page_size payload.reading_id minChunkChars (llmResp llmModel),
         [modelForPage, llmModel])
      else (first, [modelForPage])
    else ([], [])
  let result :=
    if llmOutcome.1 = [] then
      (pageToChunks docId kind pdfPath payload.page_num payload.text payload.reading_id
        targetChunkChars minChunkChars).map (fun cs => (payload.page_num, cs))
    else some (payload.page_num, llmOutcome.1)
  (result, llmOutcome.2)

/-! ## retrieval.py: reading-id aliases, chunk loading, query fallback -/

/-- Match, at position i, of the pattern that the raw-string source
r"(\x5c\x5cd+)" of _reading_id_aliases actually compiles to: a literal
backslash followed by one or more letters d (the doubled backslash escapes
the backslash; d+ is then the plain letter). Returns the match length. -/
def matchBackslashDAt (s : List Char) (i : Nat) : Option Nat :=
  if s[i]? == some '\\' then
    match plusRun (fun c => c = 'd') s (i + 1) with
    | some m => some (m - i)
    | none => none
  else none

/-- Python int(str): optional sign and at least one ASCII digit after
stripping whitespace; anything else raises ValueError. -/
def pyInt (s : List Char) : Except String Int :=
  let t := pyStrip s
  let (sign, digits) : Int × List Char := match t with
    | '-' :: rest => (-1, rest)
    | '+' :: rest => (1, rest)
    | rest => (1, rest)
  if digits ≠ [] && digits.all Char.isDigit then
    .ok (sign * (digits.foldl (fun a c => a * 10 + ((c.toNat : Int) - 48)) 0))
  else .error ("invalid literal for int with base 10: " ++ String.mk s)

/-- Append each of ys to the set xs, skipping values already present
(set.add; the resulting list order models one iteration order of the
Python set, which downstream code only uses for membership). -/
def pySetAddAll (xs ys : List String) : List String :=
  ys.foldl (fun acc y => if acc.contains y then acc else acc ++ [y]) xs

/-- retrieval._reading_id_aliases. The alias regex searches for the
escaped pattern of matchBackslashDAt; when it matches, the captured group
(a backslash followed by ds) is fed to int(), which raises. For every
reading id free of that pattern the function returns just the stripped raw
id — the numeric alias forms are never produced. -/
def readingIdAliases (readingId : String) : Except String (List String) :=
  let raw := pyStrip readingId.data
  let ids : List String := [String.mk raw]
  match reSearch matchBackslashDAt raw with
  | none => .ok ids
  | some (i, l) =>
    match pyInt ((raw.drop i).take l) with
    | .error e => .error e
    | .ok n =>
      .ok (pySetAddAll ids
        [toString n, "R" ++ toString n, "Reading " ++ toString n,
         "Learning Module " ++ toString n])

/-- retrieval.load_chunks_for_reading over an in-memory chunk stream: keep
the chunks whose stripped, lower-cased reading id is non-empty and belongs
to the lower-cased alias set, in stream order. -/
def loadChunksForReading (chunks : List Chunk) (readingId : String) :
    Except String (List Chunk) :=
  match readingIdAliases readingId with
  | .error e => .error e
  | .ok as0 =>
    let aliases := as0.map (fun a => String.mk (pyLower a.data))
    .ok (chunks.filter (fun c =>
      let rid := String.mk (pyLower (pyStrip ((c.reading_id.getD "").data)))
      rid ≠ "" && aliases.contains rid))

/-- Modelled from the spec (§4.5, §8 packet fidelity): the intended alias
set of a reading id — the raw id plus, when it contains a number n, the
plain number, R<n>, Reading <n> and Learning Module <n> forms. Present
only to exhibit the divergence of the source's alias regex; the source
behaviour itself is readingIdAliases. -/
def specReadingIdAliases (readingId : String) : List String :=
  let raw := pyStrip readingId.data
  match reSearch (fun s i => (plusRun Char.isDigit s i).map (fun m => m - i)) raw with
  | none => [String.mk raw]
  | some (i, l) =>
    let n := ((raw.drop i).take l).foldl (fun a c => a * 10 + (c.toNat - 48)) 0
    pySetAddAll [String.mk raw]
      [toString n, "R" ++ toString n, "Reading " ++ toString n,
       "Learning Module " ++ toString n]

/-- Modelled from the spec: whether a chunk's reading id matches the
requested reading under the intended alias normalization. -/
def specAliasMatches (requested : String) (chunkReadingId : Option String) : Bool :=
  let aliases := (specReadingIdAliases requested).map (fun a => String.mk (pyLower a.data))
  let rid := String.mk (pyLower (pyStrip ((chunkReadingId.getD "").data)))
  rid ≠ "" && aliases.contains rid

/-- The reading_fulltext step of build_evidence_packet: load the reading's
chunks and fail hard when none are found. -/
def readingFulltext (chunks : List Chunk) (readingId : String) :
    Except String (List Chunk) :=
  match loadChunksForReading chunks readingId with
  | .error e => .error e
  | .ok [] => .error ("No chunks found for reading_id=" ++ readingId)
  | .ok items => .ok items

/-- One same-document retrieval query of build_evidence_packet (its
try/except around chroma_query): on an error whose message contains
"does not exist" or "NotFound", with a configured unified index directory
that exists, the same query is retried against the unified index with a
doc_id metadata filter; otherwise the error propagates. chromaQuery is the
external engine (directory, query, k, optional where-filter); dirExists is
the filesystem. -/
def queryWithFallback
    (chromaQuery : String → String → Nat → Option (String × String) →
      Except String (List RetrievalHit))
    (dirExists : String → Bool) (chromaDir : String)
    (unifiedChromaDir : Option String) (docId q : String) (k : Nat) :
    Except String (List RetrievalHit) :=
  match chromaQuery chromaDir q k none with
  | .ok hits => .ok hits
  | .error msg =>
    if (pyContains msg.data "does not exist".data ||
        pyContains msg.data "NotFound".data) &&
       (match unifiedChromaDir with | some u => dirExists u | none => false) then
      chromaQuery (unifiedChromaDir.getD "") q k (some ("doc_id", docId))
    else .error msg

/-- The fixed same-document query battery of build_evidence_packet. -/
def defaultQueries (docId readingId : String) : List String :=
  [docId ++ " " ++ readingId ++ " key concepts",
   readingId ++ " exam traps common mistakes",
   readingId ++ " formula intuition example"]

/-- The top_k loop of build_evidence_packet over the same-document
queries, each with k = 12; the first propagated error aborts the build. -/
def buildTopK
    (chromaQuery : String → String → Nat → Option (String × String) →
      Except String (List RetrievalHit))
    (dirExists : String → Bool) (chromaDir : String)
    (unifiedChromaDir : Option String) (docId : String) (queries : List String) :
    Except String (List TopKQuery) :=
  queries.mapM (fun q =>
    (queryWithFallback chromaQuery dirExists chromaDir unifiedChromaDir docId q 12).map
      (fun hits => { query := q, k := 12, hits := hits }))

/-! ## index_store.py: embedding batches and the index build -/

/-- Python str() of a bool, as stored in the index metadata. -/
def pyStrBool (b : Bool) : String := if b then "True" else "False"

/-- The metadata stored with each index entry. -/
structure IndexMeta where
  doc_id : String
  kind : String
  page : Nat
  reading_id : String
  no_cut : String
deriving Repr, DecidableEq, Inhabited

/-- A call issued against the vector index engine during a build; α is the
embedding scalar type (float in the source). -/
inductive EngineCall (α : Type) where
  | deleteCollection (name : String)
  | createCollection (name : String)
  | insert (ids : List String) (docs : List String) (metas : List IndexMeta)
      (embeddings : List (List α))
deriving Repr, DecidableEq

/-- The per-response dimension check of compute_embeddings_in_batches: walk
the returned vectors in order and raise at the first whose length is not
768. -/
def checkVecs : List (List α) → Except String (List (List α))
  | [] => .ok []
  | v :: vs =>
    if v.length ≠ 768 then .error ("Wrong dim: " ++ toString v.length)
    else (checkVecs vs).map (fun rest => v :: rest)

/-- The batch loop of compute_embeddings_in_batches: embed is the external
embedding collaborator; a failed call or a wrong-dimension vector raises,
discarding the whole computation. -/
def embedBatchesGo (embed : List String → Except String (List (List α))) :
    List (List String) → Except String (List (List α))
  | [] => .ok []
  | b :: bs =>
    match embed b with
    | .error e => .error e
    | .ok resp =>
      match checkVecs resp with
      | .error e => .error e
      | .ok vs => (embedBatchesGo embed bs).map (fun rest => vs ++ rest)

/-- index_store.compute_embeddings_in_batches: fixed batches of 50. -/
def computeEmbeddingsInBatches (embed : List String → Except String (List (List α)))
    (texts : List String) : Except String (List (List α)) :=
  embedBatchesGo embed (chunksOf 50 texts)

/-- The gather loop of build_chroma_index over the concatenated chunk
streams: skip chunk ids already seen this run, otherwise append id,
document text and metadata. -/
def gatherStep (st : List String × List String × List String × List IndexMeta)
    (r : Chunk) : List String × List String × List String × List IndexMeta :=
  let (seen, ids, docs, metas) := st
  if seen.contains r.chunk_id then st
  else (seen ++ [r.chunk_id], ids ++ [r.chunk_id], docs ++ [r.content],
        metas ++ [{ doc_id := r.doc_id, kind := r.kind, page := r.page,
                    reading_id := r.reading_id.getD "",
                    no_cut := pyStrBool r.no_cut }])

/-- The bounded insert batches of build_chroma_index: one engine add call
per 5000 entries, slicing all four parallel lists by the same indices. -/
def insertCalls (ids docs : List String) (metas : List IndexMeta)
    (embs : List (List α)) : List (EngineCall α) :=
  (List.range ((ids.length + 4999) / 5000)).map (fun j =>
    let i := j * 5000
    let e := min (i + 5000) ids.length
    EngineCall.insert ((ids.drop i).take (e - i)) ((docs.drop i).take (e - i))
      ((metas.drop i).take (e - i)) ((embs.drop i).take (e - i)))

/-- index_store.build_chroma_index as its sequence of engine calls plus an
optional propagated error: drop and recreate the collection, gather the
deduplicated rows from the chunk stream files, compute all embeddings in
batches, and only then issue the bounded insert calls. An embedding
failure aborts with the collection dropped and recreated but nothing
inserted. -/
def buildChromaIndex (files : List (List Chunk))
    (embed : List String → Except String (List (List α))) :
    List (EngineCall α) × Option String :=
  let calls := [EngineCall.deleteCollection "cfa_chunks",
                EngineCall.createCollection "cfa_chunks"]
  let gathered := (files.flatten).foldl gatherStep ([], [], [], [])
  let ids := gathered.2.1
  let docs := gathered.2.2.1
  let metas := gathered.2.2.2
  if ids = [] then (calls, none)
  else
    match computeEmbeddingsInBatches embed docs with
    | .error e => (calls, some e)
    | .ok embeddings => (calls ++ insertCalls ids docs metas embeddings, none)

/-! ## reading_map_builder.py: interval cleaning, closing and merging -/

/-- One detected reading start (reading_id, reading_title, page_start). -/
structure ReadingStart where
  reading_id : String
  reading_title : String
  page_start : Int
deriving Repr, DecidableEq, Inhabited

/-- One closed reading interval of the persisted reading map. -/
structure ReadingInterval where
  reading_id : String
  reading_title : String
  page_start : Int
  page_end : Int
deriving Repr, DecidableEq, Inhabited

/-- The de-duplication of build_reading_map_for_doc by the
"reading_id|page_start" key: first occurrence wins, insertion order as in a
Python dict. -/
def dedupStarts (rs : List ReadingStart) : List ReadingStart :=
  (rs.foldl
    (fun (st : List String × List ReadingStart) r =>
      let key := r.reading_id ++ "|" ++ toString r.page_start
      if st.1.contains key then st else (st.1 ++ [key], st.2 ++ [r]))
    ([], [])).2

/-- Stable insertion of a start into a page_start-sorted list: after every
element with an equal or smaller page_start. -/
def insertByStart (r : ReadingStart) : List ReadingStart → List ReadingStart
  | [] => [r]
  | x :: xs =>
    if x.page_start ≤ r.page_start then x :: insertByStart r xs else r :: x :: xs

/-- Python sorted(..., key=page_start): a stable sort by page_start. -/
def sortByStart (rs : List ReadingStart) : List ReadingStart :=
  rs.foldl (fun acc r => insertByStart r acc) []

/-- The monotonicity cleaning loop of build_reading_map_for_doc: drop every
start not strictly greater than the last accepted one (last_start starts
at 0). -/
def cleanStarts (lastStart : Int) : List ReadingStart → List ReadingStart
  | [] => []
  | r :: rs =>
    if r.page_start ≤ lastStart then cleanStarts lastStart rs
    else r :: cleanStarts r.page_start rs

/-- The interval-closing loop of build_reading_map_for_doc: every interval
ends one page before the next start; the final interval ends at the
document's page count. -/
def closeIntervals (nPages : Int) : List ReadingStart → List ReadingInterval
  | [] => []
  | [r] => [{ reading_id := r.reading_id, reading_title := r.reading_title,
              page_start := r.page_start, page_end := nPages }]
  | r :: r2 :: rs =>
    { reading_id := r.reading_id, reading_title := r.reading_title,
      page_start := r.page_start, page_end := r2.page_start - 1 } ::
    closeIntervals nPages (r2 :: rs)

/-- The deterministic tail of build_reading_map_for_doc (its lines
253-281), from the accumulated reading starts and the page count to the
document's interval list: de-duplicate, sort, enforce strictly increasing
starts, fail when nothing is left, then close the intervals. -/
def computeReadingIntervals (readingStarts : List ReadingStart) (nPages : Int) :
    Except String (List ReadingInterval) :=
  let cleaned := cleanStarts 0 (sortByStart (dedupStarts readingStarts))
  if cleaned = [] then .error "No reading starts detected"
  else .ok (closeIntervals nPages cleaned)

/-- Python dict assignment data[doc_id] = intervals on the loaded reading
map (keys are unique in a dict loaded from JSON): replace the entry in
place when the key exists, else append it. -/
def pySetItem (m : List (String × List ReadingInterval)) (k : String)
    (v : List ReadingInterval) : List (String × List ReadingInterval) :=
  if (m.map Prod.fst).contains k then
    m.map (fun kv => if kv.1 = k then (k, v) else kv)
  else m ++ [(k, v)]

/-- Python dict lookup data.get(k) (first matching key). -/
def pyGet (m : List (String × List ReadingInterval)) (k : String) :
    Option (List ReadingInterval) :=
  (m.find? (fun kv => kv.1 == k)).map Prod.snd

/-- The merge step of build_reading_map_for_doc (its lines 283-289): the
loaded map with this document's entry replaced or added. -/
def mergeReadingMap (data : List (String × List ReadingInterval)) (docId : String)
    (intervals : List ReadingInterval) : List (String × List ReadingInterval) :=
  pySetItem data docId intervals

/-! ## Concrete inputs for the witnesses -/

deriving instance DecidableEq for Except

/-- A concrete interval for the C9 witness. -/
def c9DemoIv1 : ReadingInterval :=
  { reading_id := "1", reading_title := "t", page_start := 1, page_end := 4 }

/-- A second concrete interval for the C9 witness. -/
def c9DemoIv2 : ReadingInterval :=
  { reading_id := "2", reading_title := "u", page_start := 1, page_end := 9 }

/-- A concrete two-document reading map for the C9 witness. -/
def c9DemoMap : List (String × List ReadingInterval) :=
  [("doc-a", []), ("doc-b", [c9DemoIv1])]

/-- The embedding collaborator of the C5 witness: a successful response
whose single vector has the wrong dimension. -/
def c5BadEmbed : List String → Except String (List (List Int)) := fun _ => Except.ok [[0]]

/-- The chunk stream of the C5 witness. -/
def c5DemoChunk : Chunk :=
  { chunk_id := "id1", doc_id := "d", kind := "official", page := 1,
    content := "text body", span := { start_char := 0, end_char := 9 },
    content_hash := "h" }

/-- The index engine of the C6 witness: the per-document directory is
missing, the unified directory answers with one hit. -/
def c6Engine : String → String → Nat → Option (String × String) →
    Except String (List RetrievalHit) :=
  fun dir _ _ _ =>
    if dir = "per-doc" then Except.error "Collection cfa_chunks does not exist"
    else Except.ok [{ chunk_id := "c", doc_id := "d", page := 1, score := 1, snippet := "s" }]

/-- The detected starts of the C3 witness. -/
def c3DemoStarts : List ReadingStart :=
  [{ reading_id := "1", reading_title := "t", page_start := 2 },
   { reading_id := "2", reading_title := "u", page_start := 5 }]

/-- The closed intervals of the C3 witness. -/
def c3DemoIntervals : List ReadingInterval :=
  [{ reading_id := "1", reading_title := "t", page_start := 2, page_end := 4 },
   { reading_id := "2", reading_title := "u", page_start := 5, page_end := 10 }]

/-- The chunk of the C2 failing input: stored under the spelled-out
reading id "Reading 7". -/
def c2Chunk : Chunk :=
  { chunk_id := "c1", doc_id := "d", kind := "official", page := 5,
    reading_id := some "Reading 7", content := "body",
    span := { start_char := 0, end_char := 4 }, content_hash := "h" }

/-- The two text blocks of the C1 witness page. -/
def c1DemoBlocks : List PdfBlockRec :=
  [{ btype := 0, bbox := none,
     lines := [{ spans := [{ text := "alpha beta gamma delta epsilon zeta eta theta" }] }] },
   { btype := 0, bbox := none,
     lines := [{ spans := [{ text := "kappa lambda mu nu xi omicron pi rho sigma" }] }] }]

/-- The collaborator response of the C1 witness: one chunk proposing the
blocks in the order [1, 0]. -/
def c1DemoResp : LlmPageSpec :=
  { chunks := [{ block_ids := [1, 0], content_type := "text" }] }

/-- The assisted-strategy output of the C1 witness. -/
def c1DemoChunks : List Chunk :=
  pageToChunksLlm "doc-1" "official" "src.pdf" 3 c1DemoBlocks [612, 792] (some "7") 50
    (some c1DemoResp)

/-- The first chunk of the C1 witness output. -/
def c1DemoChunk : Chunk := c1DemoChunks.getD 0 default

/-- The single text block of the C4 witness page. -/
def c4DemoBlocks : List PdfBlockRec :=
  [{ btype := 0, bbox := none,
     lines := [{ spans := [{ text := "row one value alpha row two value beta row three gamma" }] }] }]

/-- The collaborator response of the C4 witness: a table proposal whose
no_cut hint is false. -/
def c4DemoResp : LlmPageSpec :=
  { chunks := [{ block_ids := [0], content_type := "table", no_cut := false }] }

/-- The assisted-strategy output of the C4 witness. -/
def c4DemoChunks : List Chunk :=
  pageToChunksLlm "doc-1" "official" "s.pdf" 2 c4DemoBlocks [612, 792] none 50
    (some c4DemoResp)

/-- The first chunk of the C4 witness output. -/
def c4DemoChunk : Chunk := c4DemoChunks.getD 0 default

/-- The page text of the C7 witness: 600 filler characters, a sentence
boundary, then 1300 more characters. -/
def c7DemoText : List Char :=
  List.replicate 600 'a' ++ '.' :: ' ' :: List.replicate 1300 'b'

/-- The C8 counterexample payload: a page with extractable blocks that is
not flagged complex. -/
def c8Payload : PagePayload :=
  { page_num := 1, text := "", reading_id := none,
    blocks := [{ btype := 0, bbox := none,
                 lines := [{ spans := [{ text := "some text" }] }] }],
    page_size := [612, 792], needs_vision := false, complex_page := false }

/-- The C8 witness payload: a page with extractable blocks flagged
complex, so the first assisted attempt uses the complex-page profile. -/
def c8ComplexPayload : PagePayload :=
  { page_num := 2, text := "", reading_id := none,
    blocks := [{ btype := 0, bbox := none,
                 lines := [{ spans := [{ text := "some text" }] }] }],
    page_size := [612, 792], needs_vision := false, complex_page := true }

/-! ## Theorems -/

set_option maxRecDepth 100000 in
/-- SHA-1 sanity check against the standard test vector. -/
theorem sha1_abc_vector : pySha1 "abc" = "a9993e364706816aba3e25717850c26c9cd0d89d" := by
  decide

lemma pyGet_map_self (m : List (String × List ReadingInterval)) (docId : String)
    (v : List ReadingInterval) (hc : (m.map Prod.fst).contains docId = true) :
    pyGet (m.map (fun kv => if kv.1 = docId then (docId, v) else kv)) docId = some v := by
  induction m with
  | nil => simp at hc
  | cons kv0 rest ih =>
    rw [List.map_cons]
    by_cases h0 : kv0.1 = docId
    · rw [if_pos h0]
      unfold pyGet
      rw [List.find?_cons_of_pos _ (by simp)]
      rfl
    · have hc' : (rest.map Prod.fst).contains docId = true := by
        simp only [List.map_cons, List.contains_cons] at hc
        rcases Bool.or_eq_true_iff.mp hc with h | h
        · exact absurd (beq_iff_eq.mp h).symm h0
        · exact h
      rw [if_neg h0]
      unfold pyGet
      rw [List.find?_cons_of_neg _ (by simp [h0])]
      exact ih hc'

lemma pyGet_map_other (m : List (String × List ReadingInterval)) (docId : String)
    (v : List ReadingInterval) (k : String) (hk : k ≠ docId) :
    pyGet (m.map (fun kv => if kv.1 = docId then (docId, v) else kv)) k = pyGet m k := by
  induction m with
  | nil => rfl
  | cons kv0 rest ih =>
    rw [List.map_cons]
    by_cases h0 : kv0.1 = docId
    · rw [if_pos h0]
      unfold pyGet
      rw [List.find?_cons_of_neg _ (by simp; exact fun h => hk h.symm),
          List.find?_cons_of_neg _ (by simp [h0]; exact fun h => hk h.symm)]
      exact ih
    · rw [if_neg h0]
      by_cases hmatch : kv0.1 = k
      · unfold pyGet
        rw [List.find?_cons_of_pos _ (by simp [hmatch]),
            List.find?_cons_of_pos _ (by simp [hmatch])]
      · unfold pyGet
        rw [List.find?_cons_of_neg _ (by simp [hmatch]),
            List.find?_cons_of_neg _ (by simp [hmatch])]
        exact ih

lemma pyGet_append_self (m : List (String × List ReadingInterval)) (docId : String)
    (v : List ReadingInterval) (hc : (m.map Prod.fst).contains docId = false) :
    pyGet (m ++ [(docId, v)]) docId = some v := by
  induction m with
  | nil =>
    unfold pyGet
    rw [List.nil_append, List.find?_cons_of_pos _ (by simp)]
    rfl
  | cons kv0 rest ih =>
    simp only [List.map_cons, List.contains_cons, Bool.or_eq_false_iff] at hc
    have h0 : ¬ kv0.1 = docId := by
      intro h
      rw [h] at hc
      simp at hc
    rw [List.cons_append]
    unfold pyGet
    rw [List.find?_cons_of_neg _ (by simp [h0])]
    exact ih hc.2

lemma pyGet_append_other (m : List (String × List ReadingInterval)) (docId : String)
    (v : List ReadingInterval) (k : String) (hk : k ≠ docId) :
    pyGet (m ++ [(docId, v)]) k = pyGet m k := by
  induction m with
  | nil =>
    unfold pyGet
    rw [List.nil_append, List.find?_cons_of_neg _ (by simp; exact fun h => hk h.symm)]
  | cons kv0 rest ih =>
    rw [List.cons_append]
    by_cases hmatch : kv0.1 = k
    · unfold pyGet
      rw [List.find?_cons_of_pos _ (by simp [hmatch]),
          List.find?_cons_of_pos _ (by simp [hmatch])]
    · unfold pyGet
      rw [List.find?_cons_of_neg _ (by simp [hmatch]),
          List.find?_cons_of_neg _ (by simp [hmatch])]
      exact ih

/-- C9: rebuilding the reading map for one document merges the new interval
list under that document's key and leaves every other document's entry in
the persisted map unchanged. -/
theorem C9_merge_frame (data : List (String × List ReadingInterval)) (docId : String)
    (intervals : List ReadingInterval) (k : String) (hk : k ≠ docId) :
    pyGet (mergeReadingMap data docId intervals) docId = some intervals ∧
    pyGet (mergeReadingMap data docId intervals) k = pyGet data k := by
  unfold mergeReadingMap pySetItem
  by_cases hc : (data.map Prod.fst).contains docId = true
  · rw [if_pos hc]
    exact ⟨pyGet_map_self data docId intervals hc,
           pyGet_map_other data docId intervals k hk⟩
  · rw [if_neg hc]
    exact ⟨pyGet_append_self data docId intervals (Bool.not_eq_true _ ▸ eq_false_of_ne_true hc),
           pyGet_append_other data docId intervals k hk⟩

/-- C9 witness: the merge at a concrete two-document map. -/
theorem C9_merge_frame_witness :
    ("doc-b" ≠ "doc-a") ∧
    pyGet (mergeReadingMap c9DemoMap "doc-a" [c9DemoIv2]) "doc-a" = some [c9DemoIv2] ∧
    pyGet (mergeReadingMap c9DemoMap "doc-a" [c9DemoIv2]) "doc-b" = pyGet c9DemoMap "doc-b" :=
  ⟨by decide,
   (C9_merge_frame c9DemoMap "doc-a" [c9DemoIv2] "doc-b" (by decide)).1,
   (C9_merge_frame c9DemoMap "doc-a" [c9DemoIv2] "doc-b" (by decide)).2⟩

lemma checkVecs_error (vecs : List (List α)) (v : List α) (hv : v ∈ vecs)
    (hd : v.length ≠ 768) : ∃ e, checkVecs vecs = Except.error e := by
  induction vecs with
  | nil => cases hv
  | cons v0 rest ih =>
    by_cases h0 : v0.length ≠ 768
    · exact ⟨"Wrong dim: " ++ toString v0.length, by simp [checkVecs, h0]⟩
    · have hvr : v ∈ rest := by
        rcases List.mem_cons.mp hv with rfl | h
        · exact absurd hd h0
        · exact h
      obtain ⟨e, he⟩ := ih hvr
      exact ⟨e, by simp [checkVecs, h0, he, Except.map]⟩

lemma embedBatchesGo_error (embed : List String → Except String (List (List α)))
    (bs : List (List String)) (batch : List String)
    (hb : batch ∈ bs)
    (hbad : (∃ vecs, embed batch = Except.ok vecs ∧ ∃ v ∈ vecs, v.length ≠ 768) ∨
            (∃ err, embed batch = Except.error err)) :
    ∃ e, embedBatchesGo embed bs = Except.error e := by
  induction bs with
  | nil => cases hb
  | cons b0 rest ih =>
    rcases List.mem_cons.mp hb with rfl | hbr
    · rcases hbad with ⟨vecs, he, v, hv, hd⟩ | ⟨err, he⟩
      · obtain ⟨e, hce⟩ := checkVecs_error vecs v hv hd
        exact ⟨e, by simp [embedBatchesGo, he, hce]⟩
      · exact ⟨err, by simp [embedBatchesGo, he]⟩
    · cases he0 : embed b0 with
      | error e => exact ⟨e, by simp [embedBatchesGo, he0]⟩
      | ok resp =>
        cases hc : checkVecs resp with
        | error e => exact ⟨e, by simp [embedBatchesGo, he0, hc]⟩
        | ok vs =>
          obtain ⟨e, hrec⟩ := ih hbr
          exact ⟨e, by simp [embedBatchesGo, he0, hc, hrec, Except.map]⟩

lemma gather_len (rows : List Chunk)
    (st : List String × List String × List String × List IndexMeta)
    (h : st.2.1.length = st.2.2.1.length) :
    ((rows.foldl gatherStep st).2.1).length = ((rows.foldl gatherStep st).2.2.1).length := by
  induction rows generalizing st with
  | nil => exact h
  | cons r rest ih =>
    rw [List.foldl_cons]
    apply ih
    rcases st with ⟨seen, ids, docs, metas⟩
    by_cases hc : r.chunk_id ∈ seen
    · simpa [gatherStep, hc] using h
    · simp only [gatherStep] at *
      simp [hc, h]

/-- C5: a wrong-dimension vector in any embedding batch — or an embedding
call that fails outright — aborts the index build before any insert call
is issued against the index engine: the engine-call sequence contains no
insert, and the error is propagated. -/
theorem C5_dimension_guard (files : List (List Chunk))
    (embed : List String → Except String (List (List α)))
    (batch : List String)
    (hb : batch ∈ chunksOf 50 (((files.flatten).foldl gatherStep ([], [], [], [])).2.2.1))
    (hbad : (∃ vecs, embed batch = Except.ok vecs ∧ ∃ v ∈ vecs, v.length ≠ 768) ∨
            (∃ err, embed batch = Except.error err)) :
    (∀ ids ds ms es, EngineCall.insert ids ds ms es ∉ (buildChromaIndex files embed).1) ∧
    (buildChromaIndex files embed).2.isSome := by
  by_cases hids : (((files.flatten).foldl gatherStep ([], [], [], [])).2.1) = []
  · exfalso
    have hdocs : (((files.flatten).foldl gatherStep ([], [], [], [])).2.2.1) = [] := by
      have := gather_len files.flatten ([], [], [], []) rfl
      rw [hids] at this
      exact List.length_eq_zero.mp this.symm
    rw [hdocs] at hb
    simp [chunksOf, chunksOfAux] at hb
  · obtain ⟨e, herr⟩ :=
      embedBatchesGo_error embed
        (chunksOf 50 (((files.flatten).foldl gatherStep ([], [], [], [])).2.2.1))
        batch hb hbad
    have hbuild : buildChromaIndex files embed =
        ([EngineCall.deleteCollection "cfa_chunks",
          EngineCall.createCollection "cfa_chunks"], some e) := by
      unfold buildChromaIndex
      simp only [computeEmbeddingsInBatches] at *
      rw [if_neg hids, herr]
    rw [hbuild]
    refine ⟨?_, rfl⟩
    intro ids ds ms es hmem
    simp [List.mem_cons] at hmem

/-- C5 witness: the guard at a concrete one-chunk build. -/
theorem C5_dimension_guard_witness :
    (buildChromaIndex [[c5DemoChunk]] c5BadEmbed).2.isSome :=
  (C5_dimension_guard [[c5DemoChunk]] c5BadEmbed ["text body"]
    (by decide) (Or.inl ⟨[[0]], rfl, [0], by decide, by decide⟩)).2

/-- C6: when the per-document index query fails with an index-missing error
and a unified index is configured and present, the same query (same query
string, same k) is reissued against the unified index with a doc_id filter
and its result — hits of the same RetrievalHit shape, or its own error —
is returned unchanged; when the unified index is not configured or its
directory does not exist, the original error propagates. -/
theorem C6_unified_fallback
    (chromaQuery : String → String → Nat → Option (String × String) →
      Except String (List RetrievalHit))
    (dirExists : String → Bool) (chromaDir u docId q : String) (k : Nat) (msg : String)
    (herr : chromaQuery chromaDir q k none = Except.error msg)
    (hmsg : (pyContains msg.data "does not exist".data ||
             pyContains msg.data "NotFound".data) = true) :
    (dirExists u = true →
      queryWithFallback chromaQuery dirExists chromaDir (some u) docId q k =
        chromaQuery u q k (some ("doc_id", docId))) ∧
    (dirExists u = false →
      queryWithFallback chromaQuery dirExists chromaDir (some u) docId q k =
        Except.error msg) ∧
    (queryWithFallback chromaQuery dirExists chromaDir none docId q k =
      Except.error msg) := by
  refine ⟨fun hex => ?_, fun hex => ?_, ?_⟩
  · simp [queryWithFallback, herr, hmsg, hex]
  · simp [queryWithFallback, herr, hmsg, hex]
  · simp [queryWithFallback, herr, hmsg]

/-- C6 witness: the fallback at a concrete engine and directory layout. -/
theorem C6_unified_fallback_witness :
    queryWithFallback c6Engine (fun _ => true) "per-doc" (some "unified") "d" "q" 12 =
      c6Engine "unified" "q" 12 (some ("doc_id", "d")) :=
  (C6_unified_fallback c6Engine (fun _ => true) "per-doc" "unified" "d" "q" 12
    "Collection cfa_chunks does not exist" rfl (by decide)).1 rfl

lemma cleanStarts_gt (rs : List ReadingStart) (lastStart : Int) (r : ReadingStart)
    (h : r ∈ cleanStarts lastStart rs) : lastStart < r.page_start := by
  induction rs generalizing lastStart with
  | nil => cases h
  | cons r0 rest ih =>
    unfold cleanStarts at h
    by_cases h0 : r0.page_start ≤ lastStart
    · rw [if_pos h0] at h
      exact ih lastStart h
    · rw [if_neg h0] at h
      rcases List.mem_cons.mp h with rfl | hmem
      · exact lt_of_not_le h0
      · exact lt_trans (lt_of_not_le h0) (ih r0.page_start hmem)

lemma cleanStarts_chain (rs : List ReadingStart) (lastStart : Int) :
    List.Chain' (fun a b : ReadingStart => a.page_start < b.page_start)
      (cleanStarts lastStart rs) := by
  induction rs generalizing lastStart with
  | nil => simp [cleanStarts]
  | cons r0 rest ih =>
    unfold cleanStarts
    by_cases h0 : r0.page_start ≤ lastStart
    · rw [if_pos h0]
      exact ih lastStart
    · rw [if_neg h0]
      refine List.chain'_cons'.mpr ⟨fun b hb => ?_, ih r0.page_start⟩
      exact cleanStarts_gt rest r0.page_start b (List.mem_of_mem_head? hb)

lemma closeIntervals_map_start (ss : List ReadingStart) (n : Int) :
    (closeIntervals n ss).map (fun iv => iv.page_start) =
      ss.map (fun r => r.page_start) := by
  induction ss with
  | nil => rfl
  | cons r rest ih =>
    cases rest with
    | nil => rfl
    | cons r2 rs => simpa [closeIntervals] using ih

lemma closeIntervals_ne_nil (ss : List ReadingStart) (n : Int) (h : ss ≠ []) :
    closeIntervals n ss ≠ [] := by
  cases ss with
  | nil => exact absurd rfl h
  | cons r rest =>
    cases rest with
    | nil => simp [closeIntervals]
    | cons r2 rs => simp [closeIntervals]

lemma closeIntervals_chain_end (ss : List ReadingStart) (n : Int) :
    List.Chain' (fun a b : ReadingInterval => a.page_end = b.page_start - 1)
      (closeIntervals n ss) := by
  induction ss with
  | nil => simp [closeIntervals]
  | cons r rest ih =>
    cases rest with
    | nil => simp [closeIntervals]
    | cons r2 rs =>
      refine List.chain'_cons'.mpr ⟨fun b hb => ?_, ih⟩
      have hmap : (closeIntervals n (r2 :: rs)).head?.map (fun iv => iv.page_start) =
          ((r2 :: rs).head?).map (fun x => x.page_start) := by
        rw [← List.head?_map, closeIntervals_map_start, List.head?_map]
      rw [hb] at hmap
      simp at hmap
      simp [hmap]

lemma closeIntervals_getLast_end (ss : List ReadingStart) (n : Int) (h : ss ≠ [])
    (hne : closeIntervals n ss ≠ []) :
    ((closeIntervals n ss).getLast hne).page_end = n := by
  induction ss with
  | nil => exact absurd rfl h
  | cons r rest ih =>
    cases rest with
    | nil => simp [closeIntervals]
    | cons r2 rs =>
      have hrec : closeIntervals n (r2 :: rs) ≠ [] :=
        closeIntervals_ne_nil (r2 :: rs) n (by simp)
      have : closeIntervals n (r :: r2 :: rs) =
          { reading_id := r.reading_id, reading_title := r.reading_title,
            page_start := r.page_start, page_end := r2.page_start - 1 } ::
          closeIntervals n (r2 :: rs) := rfl
      rw [List.getLast_congr _ _ this, List.getLast_cons hrec]
      exact ih (by simp) hrec

/-- C3: whenever the reading-boundary computation succeeds, the interval
list is non-empty, page_start is strictly increasing, each interval ends
exactly one page before the next begins (non-overlapping), and the final
interval ends at the document's page count. -/
theorem C3_interval_invariant (rs : List ReadingStart) (n : Int)
    (l : List ReadingInterval) (h : computeReadingIntervals rs n = Except.ok l) :
    l ≠ [] ∧
    List.Chain' (fun a b : ReadingInterval => a.page_start < b.page_start) l ∧
    List.Chain' (fun a b : ReadingInterval => a.page_end = b.page_start - 1) l ∧
    ∀ hne : l ≠ [], (l.getLast hne).page_end = n := by
  unfold computeReadingIntervals at h
  by_cases hcl : cleanStarts 0 (sortByStart (dedupStarts rs)) = []
  · rw [if_pos hcl] at h
    cases h
  · rw [if_neg hcl] at h
    have hl : l = closeIntervals n (cleanStarts 0 (sortByStart (dedupStarts rs))) :=
      (Except.ok.injEq _ _ ▸ h).symm
    subst hl
    refine ⟨closeIntervals_ne_nil _ n hcl, ?_, closeIntervals_chain_end _ n,
      fun hne => closeIntervals_getLast_end _ n hcl hne⟩
    have hchain := cleanStarts_chain (sortByStart (dedupStarts rs)) 0
    have h1 : List.Chain' (fun a b : Int => a < b)
        ((cleanStarts 0 (sortByStart (dedupStarts rs))).map (fun r => r.page_start)) :=
      (List.chain'_map (fun r : ReadingStart => r.page_start)).mpr hchain
    rw [← closeIntervals_map_start _ n] at h1
    exact (List.chain'_map (fun iv : ReadingInterval => iv.page_start)).mp h1

/-- C3 witness: the invariant at a concrete two-reading document. -/
theorem C3_interval_invariant_witness :
    computeReadingIntervals c3DemoStarts 10 = Except.ok c3DemoIntervals ∧
    (c3DemoIntervals ≠ [] ∧
     List.Chain' (fun a b : ReadingInterval => a.page_start < b.page_start) c3DemoIntervals ∧
     List.Chain' (fun a b : ReadingInterval => a.page_end = b.page_start - 1) c3DemoIntervals ∧
     ∀ hne : c3DemoIntervals ≠ [], (c3DemoIntervals.getLast hne).page_end = 10) :=
  ⟨by decide, C3_interval_invariant c3DemoStarts 10 c3DemoIntervals (by decide)⟩

/-- C2 (code bug): the alias regex of _reading_id_aliases is written
r"(\x5c\x5cd+)", which matches a literal backslash followed by letters d
rather than a digit run, so no numeric alias form is ever produced and
reading_fulltext matching degenerates to an exact case-insensitive string
comparison. At the failing input — requested reading "R7" against a chunk
stream whose one chunk is stored under "Reading 7" — the source loads no
chunks, while the intended alias normalization (specAliasMatches, modelled
from the spec) matches the chunk. -/
theorem C2_alias_bug_eval :
    loadChunksForReading [c2Chunk] "R7" = Except.ok [] ∧
    readingIdAliases "R7" = Except.ok ["R7"] ∧
    specAliasMatches "R7" c2Chunk.reading_id = true ∧
    readingFulltext [c2Chunk] "R7" = Except.error "No chunks found for reading_id=R7" := by
  decide

set_option maxRecDepth 1000000 in
/-- C1 counterexample: the source's _stable_chunk_id_blocks joins the
contributing block ids in the order proposed, without sorting, so the same
block set {0, 1} for the same document, page and content hash yields two
different chunk ids under the two list orders — re-runs proposing a
different order do not reproduce the chunk_id. -/
theorem C1_counterexample :
    stableChunkIdBlocks "doc-1" 3 [0, 1] (pySha1 "same content") ≠
    stableChunkIdBlocks "doc-1" 3 [1, 0] (pySha1 "same content") := by
  decide

lemma mem_pageToChunksLlm (docId kind sourcePath : String) (pageNum : Nat)
    (blocks : List PdfBlockRec) (pageSize : List Rat) (readingId : Option String)
    (minChunkChars : Nat) (resp : Option LlmPageSpec) (c : Chunk)
    (hc : c ∈ pageToChunksLlm docId kind sourcePath pageNum blocks pageSize readingId
      minChunkChars resp) :
    ∃ parsed spec, resp = some parsed ∧ spec ∈ parsed.chunks ∧
      llmSpecToChunk docId kind sourcePath pageNum (buildTextBlocks blocks)
        (buildImageBlocks blocks) pageSize readingId minChunkChars spec = some c := by
  cases resp with
  | none => simp [pageToChunksLlm] at hc
  | some parsed =>
    by_cases hA : ((buildTextBlocks blocks).isEmpty && (buildImageBlocks blocks).isEmpty) = true
    · have hnil : pageToChunksLlm docId kind sourcePath pageNum blocks pageSize readingId
          minChunkChars (some parsed) = [] := by
        simp [pageToChunksLlm, hA]
      rw [hnil] at hc
      cases hc
    · have heq : pageToChunksLlm docId kind sourcePath pageNum blocks pageSize readingId
          minChunkChars (some parsed) =
          parsed.chunks.filterMap (llmSpecToChunk docId kind sourcePath pageNum
            (buildTextBlocks blocks) (buildImageBlocks blocks) pageSize readingId
            minChunkChars) := by
        simp [pageToChunksLlm, hA]
      rw [heq] at hc
      obtain ⟨spec, hspec, hf⟩ := List.mem_filterMap.mp hc
      exact ⟨parsed, spec, rfl, hspec, hf⟩

lemma llmSpecToChunk_fields (docId kind sourcePath : String) (pageNum : Nat)
    (textBlocks : List TextBlock) (imageBlocks : List ImageBlock) (pageSize : List Rat)
    (readingId : Option String) (minChunkChars : Nat) (spec : LlmChunkSpec) (c : Chunk)
    (h : llmSpecToChunk docId kind sourcePath pageNum textBlocks imageBlocks pageSize
      readingId minChunkChars spec = some c) :
    c.chunk_id = stableChunkIdBlocks docId pageNum (c.block_ids.getD []) c.content_hash ∧
    c.content_hash = pySha1 c.content ∧
    c.doc_id = docId ∧ c.page = pageNum ∧
    c.content_type = spec.content_type ∧
    c.no_cut = (spec.no_cut || (spec.content_type = "table" ||
      spec.content_type = "formula" || spec.content_type = "figure")) := by
  simp only [llmSpecToChunk] at h
  split at h
  · cases h
  · split at h
    · cases h
    · obtain rfl := Option.some.inj h
      exact ⟨rfl, rfl, rfl, rfl, rfl, rfl⟩

/-- C1 amended: every chunk built by the assisted strategy carries
chunk_id = hash of (document id, page, contributing block ids in the order
proposed, content hash) — deterministic in those four values, hence stable
across reruns of identical ordered proposals, but order-dependent (see the
counterexample). -/
theorem C1_amended_block_id_hash (docId kind sourcePath : String) (pageNum : Nat)
    (blocks : List PdfBlockRec) (pageSize : List Rat) (readingId : Option String)
    (minChunkChars : Nat) (resp : Option LlmPageSpec) (c : Chunk)
    (hc : c ∈ pageToChunksLlm docId kind sourcePath pageNum blocks pageSize readingId
      minChunkChars resp) :
    c.chunk_id = stableChunkIdBlocks docId pageNum (c.block_ids.getD []) c.content_hash ∧
    c.content_hash = pySha1 c.content ∧ c.doc_id = docId ∧ c.page = pageNum := by
  obtain ⟨parsed, spec, hresp, hspec, hf⟩ := mem_pageToChunksLlm docId kind sourcePath
    pageNum blocks pageSize readingId minChunkChars resp c hc
  obtain ⟨h1, h2, h3, h4, _, _⟩ := llmSpecToChunk_fields docId kind sourcePath pageNum
    (buildTextBlocks blocks) (buildImageBlocks blocks) pageSize readingId minChunkChars
    spec c hf
  exact ⟨h1, h2, h3, h4⟩

set_option maxRecDepth 1000000 in
/-- C1 amended witness: the characterization at a concrete assisted run. -/
theorem C1_amended_witness :
    c1DemoChunk ∈ c1DemoChunks ∧
    c1DemoChunk.chunk_id =
      stableChunkIdBlocks "doc-1" 3 (c1DemoChunk.block_ids.getD []) c1DemoChunk.content_hash :=
  ⟨by decide,
   (C1_amended_block_id_hash "doc-1" "official" "src.pdf" 3 c1DemoBlocks [612, 792]
     (some "7") 50 (some c1DemoResp) c1DemoChunk (by decide)).1⟩

lemma pageToChunksLoop_forall (docId kind sourcePath : String) (pageNum : Nat)
    (readingId : Option String) (text : List Char) (target minChunkChars : Nat)
    (P : Chunk → Prop)
    (hmk : ∀ s, P (mkHeuristicChunk docId kind sourcePath pageNum readingId s
      (windowEnd text s target)
      (pyStrip ((text.drop s).take (windowEnd text s target - s))))) :
    ∀ fuel start acc cs, (∀ c ∈ acc, P c) →
      pageToChunksLoop docId kind sourcePath pageNum readingId text target minChunkChars
        fuel start acc = some cs →
      ∀ c ∈ cs, P c := by
  intro fuel
  induction fuel with
  | zero =>
    intro start acc cs hacc hloop c hc
    unfold pageToChunksLoop at hloop
    split at hloop
    · cases hloop
    · obtain rfl := Option.some.inj hloop
      exact hacc c (List.mem_reverse.mp hc)
  | succ fuel ih =>
    intro start acc cs hacc hloop c hc
    unfold pageToChunksLoop at hloop
    by_cases hs : start < text.length
    · rw [if_pos hs] at hloop
      refine ih (windowEnd text start target) _ cs ?_ hloop c hc
      intro c' hc'
      unfold pageToChunksStep at hc'
      split at hc'
      · exact hacc c' hc'
      · split at hc'
        · rcases List.mem_cons.mp hc' with rfl | h
          · exact hmk start
          · exact hacc c' h
        · exact hacc c' hc'
    · rw [if_neg hs] at hloop
      obtain rfl := Option.some.inj hloop
      exact hacc c (List.mem_reverse.mp hc)

lemma pageToChunks_content_type (docId kind sourcePath : String) (pageNum : Nat)
    (pageText : String) (readingId : Option String) (target minChunkChars : Nat)
    (cs : List Chunk) (h : pageToChunks docId kind sourcePath pageNum pageText readingId
      target minChunkChars = some cs) :
    ∀ c ∈ cs, c.content_type = "text" := by
  simp only [pageToChunks] at h
  split at h
  · obtain rfl := Option.some.inj h
    intro c hc
    cases hc
  · exact pageToChunksLoop_forall docId kind sourcePath pageNum readingId
      (pyStrip pageText.data) target minChunkChars (fun c => c.content_type = "text")
      (fun s => rfl) (pyStrip pageText.data).length 0 [] cs
      (fun c hc => absurd hc (List.not_mem_nil c)) h

/-- C4: for every chunk produced by either strategy — assisted (any
collaborator response) or heuristic — a content_type of table, formula or
figure forces no_cut = true, regardless of the collaborator's no_cut hint
(the heuristic strategy only ever emits content_type "text"). -/
theorem C4_atomicity (docId kind sourcePath : String) (pageNum : Nat)
    (blocks : List PdfBlockRec) (pageSize : List Rat) (readingId : Option String)
    (minChunkChars : Nat) (resp : Option LlmPageSpec)
    (docId2 kind2 sourcePath2 : String) (pageNum2 : Nat) (pageText : String)
    (readingId2 : Option String) (target minChunkChars2 : Nat) (cs : List Chunk) (c : Chunk)
    (hc : c ∈ pageToChunksLlm docId kind sourcePath pageNum blocks pageSize readingId
            minChunkChars resp ∨
          (pageToChunks docId2 kind2 sourcePath2 pageNum2 pageText readingId2 target
            minChunkChars2 = some cs ∧ c ∈ cs))
    (hct : c.content_type = "table" ∨ c.content_type = "formula" ∨
           c.content_type = "figure") :
    c.no_cut = true := by
  rcases hc with hc | ⟨hloop, hc⟩
  · obtain ⟨parsed, spec, hresp, hspec, hf⟩ := mem_pageToChunksLlm docId kind sourcePath
      pageNum blocks pageSize readingId minChunkChars resp c hc
    obtain ⟨_, _, _, _, hct2, hnc⟩ := llmSpecToChunk_fields docId kind sourcePath pageNum
      (buildTextBlocks blocks) (buildImageBlocks blocks) pageSize readingId minChunkChars
      spec c hf
    rw [hnc]
    rcases hct with h | h | h <;> rw [hct2] at h <;> simp [h]
  · have := pageToChunks_content_type docId2 kind2 sourcePath2 pageNum2 pageText readingId2
      target minChunkChars2 cs hloop c hc
    rcases hct with h | h | h <;> rw [this] at h <;> exact absurd h (by decide)

set_option maxRecDepth 1000000 in
/-- C4 witness: a table chunk at a concrete assisted run, with the hint
false, still comes out with no_cut = true. -/
theorem C4_atomicity_witness :
    c4DemoChunk ∈ c4DemoChunks ∧ c4DemoChunk.content_type = "table" ∧
    c4DemoChunk.no_cut = true :=
  ⟨by decide, by decide,
   C4_atomicity "doc-1" "official" "s.pdf" 2 c4DemoBlocks [612, 792] none 50
     (some c4DemoResp) "" "" "" 0 "" none 0 0 [] c4DemoChunk
     (Or.inl (by decide)) (Or.inl (by decide))⟩

lemma pyRfindAux_le (s pat : List Char) (i : Nat) : pyRfindAux s pat i ≤ (i : Int) := by
  induction i with
  | zero =>
    unfold pyRfindAux
    split
    · exact le_refl 0
    · decide
  | succ i ih =>
    unfold pyRfindAux
    split
    · exact le_refl _
    · exact le_trans ih (by exact_mod_cast Nat.le_succ i)

lemma pyRfindAux_mem (s pat : List Char) (i : Nat) (h : 0 ≤ pyRfindAux s pat i) :
    matchAt s pat (pyRfindAux s pat i).toNat = true := by
  induction i with
  | zero =>
    by_cases hm : matchAt s pat 0 = true
    · simp [pyRfindAux, hm]
    · rw [pyRfindAux, if_neg hm] at h
      exact absurd h (by decide)
  | succ i ih =>
    by_cases hm : matchAt s pat (i + 1) = true
    · simp [pyRfindAux, hm]
    · simp only [pyRfindAux, if_neg hm] at h ⊢
      exact ih h

lemma pyRfindAux_ge (s pat : List Char) (i j : Nat) (hj : j ≤ i)
    (h : matchAt s pat j = true) : (j : Int) ≤ pyRfindAux s pat i := by
  induction i with
  | zero =>
    have hj0 : j = 0 := Nat.le_zero.mp hj
    subst hj0
    unfold pyRfindAux
    rw [if_pos h]
    simp
  | succ i ih =>
    unfold pyRfindAux
    split
    · exact_mod_cast hj
    · rcases Nat.lt_or_ge j (i + 1) with hlt | hge
      · exact ih (Nat.lt_succ_iff.mp hlt)
      · have : j = i + 1 := le_antisymm hj hge
        subst this
        exact absurd h (by simpa using (by assumption : ¬ matchAt s pat (i + 1) = true))

lemma matchAt_lt_length (s pat : List Char) (j : Nat) (hpat : pat ≠ [])
    (h : matchAt s pat j = true) : j < s.length := by
  by_contra hge
  have hdrop : s.drop j = [] := List.drop_eq_nil_of_le (Nat.le_of_not_lt hge)
  unfold matchAt at h
  rw [hdrop] at h
  cases pat with
  | nil => exact hpat rfl
  | cons c cs => simp [List.isPrefixOf] at h

lemma lastCut_le_length (w : List Char) : lastCut w ≤ (w.length : Int) := by
  unfold lastCut
  exact max_le (max_le (max_le (pyRfindAux_le w _ _) (pyRfindAux_le w _ _))
    (pyRfindAux_le w _ _)) (pyRfindAux_le w _ _)

lemma lastCut_qual (w : List Char) (h : 0 ≤ lastCut w) :
    qualAt w (lastCut w).toNat = true := by
  have hcases : lastCut w = pyRfind w "\n".data ∨ lastCut w = pyRfind w ". ".data ∨
      lastCut w = pyRfind w "。".data ∨ lastCut w = pyRfind w "; ".data := by
    unfold lastCut
    rcases max_choice (max (max (pyRfind w "\n".data) (pyRfind w ". ".data))
        (pyRfind w "。".data)) (pyRfind w "; ".data) with h1 | h1 <;> rw [h1]
    · rcases max_choice (max (pyRfind w "\n".data) (pyRfind w ". ".data))
          (pyRfind w "。".data) with h2 | h2 <;> rw [h2]
      · rcases max_choice (pyRfind w "\n".data) (pyRfind w ". ".data) with h3 | h3 <;>
          rw [h3]
        · exact Or.inl rfl
        · exact Or.inr (Or.inl rfl)
      · exact Or.inr (Or.inr (Or.inl rfl))
    · exact Or.inr (Or.inr (Or.inr rfl))
  unfold qualAt
  rcases hcases with h1 | h1 | h1 | h1 <;> rw [h1] at h ⊢ <;>
    unfold pyRfind at h ⊢ <;>
    simp [pyRfindAux_mem w _ w.length h]

lemma lastCut_ge (w : List Char) (p : Nat) (h : qualAt w p = true) :
    (p : Int) ≤ lastCut w := by
  unfold qualAt at h
  unfold lastCut
  rcases Bool.or_eq_true_iff.mp h with h1 | h1
  · rcases Bool.or_eq_true_iff.mp h1 with h2 | h2
    · rcases Bool.or_eq_true_iff.mp h2 with h3 | h3
      · have hp := Nat.le_of_lt (matchAt_lt_length w _ p (by decide) h3)
        exact le_trans (pyRfindAux_ge w _ w.length p hp h3)
          (le_max_of_le_left (le_max_of_le_left (le_max_left _ _)))
      · have hp := Nat.le_of_lt (matchAt_lt_length w _ p (by decide) h3)
        exact le_trans (pyRfindAux_ge w _ w.length p hp h3)
          (le_max_of_le_left (le_max_of_le_left (le_max_right _ _)))
    · have hp := Nat.le_of_lt (matchAt_lt_length w _ p (by decide) h2)
      exact le_trans (pyRfindAux_ge w _ w.length p hp h2)
        (le_max_of_le_left (le_max_right _ _))
  · have hp := Nat.le_of_lt (matchAt_lt_length w _ p (by decide) h1)
    exact le_trans (pyRfindAux_ge w _ w.length p hp h1) (le_max_right _ _)

lemma windowEnd_cases (text : List Char) (start target : Nat) :
    (500 < lastCut ((text.drop start).take (min text.length (start + target) - start)) ∧
      windowEnd text start target = start +
        (lastCut ((text.drop start).take (min text.length (start + target) - start))).toNat) ∨
    (lastCut ((text.drop start).take (min text.length (start + target) - start)) ≤ 500 ∧
      windowEnd text start target = min text.length (start + target)) := by
  unfold windowEnd
  by_cases hcut : 500 < lastCut ((text.drop start).take (min text.length (start + target) - start))
  · left
    exact ⟨hcut, by rw [if_pos hcut]⟩
  · right
    exact ⟨le_of_not_lt hcut, by rw [if_neg hcut]⟩

lemma windowEnd_gt (text : List Char) (start target : Nat) (hs : start < text.length)
    (ht : 1 ≤ target) : start < windowEnd text start target := by
  rcases windowEnd_cases text start target with ⟨hcut, he⟩ | ⟨hcut, he⟩
  · rw [he]
    have : 0 < (lastCut ((text.drop start).take (min text.length (start + target) - start))).toNat := by
      omega
    omega
  · rw [he]
    exact lt_min hs (by omega)

lemma windowEnd_le (text : List Char) (start target : Nat) :
    windowEnd text start target ≤ text.length := by
  rcases windowEnd_cases text start target with ⟨hcut, he⟩ | ⟨hcut, he⟩
  · rw [he]
    have hlen := lastCut_le_length
      ((text.drop start).take (min text.length (start + target) - start))
    have hwlen : ((text.drop start).take (min text.length (start + target) - start)).length =
        min (min text.length (start + target) - start) (text.length - start) := by
      simp [List.length_take, List.length_drop]
    rw [hwlen] at hlen
    omega
  · rw [he]
    exact min_le_left _ _

lemma pageToChunksLoop_isSome (docId kind sourcePath : String) (pageNum : Nat)
    (readingId : Option String) (text : List Char) (target minChunkChars : Nat)
    (ht : 1 ≤ target) :
    ∀ fuel start acc, text.length - start ≤ fuel →
      (pageToChunksLoop docId kind sourcePath pageNum readingId text target minChunkChars
        fuel start acc).isSome := by
  intro fuel
  induction fuel with
  | zero =>
    intro start acc hf
    unfold pageToChunksLoop
    by_cases hs : start < text.length
    · omega
    · rw [if_neg hs]
      rfl
  | succ fuel ih =>
    intro start acc hf
    unfold pageToChunksLoop
    by_cases hs : start < text.length
    · rw [if_pos hs]
      have hgt := windowEnd_gt text start target hs ht
      exact ih (windowEnd text start target) _ (by omega)
    · rw [if_neg hs]
      rfl

/-- C10: the heuristic segmenter's windowing loop terminates for every
page text whenever the target window size is at least one character: each
iteration strictly advances the window start (an accepted cut lies past
offset 500 of the window, and the raw boundary advances by at least one),
so the loop completes within text-length iterations and _page_to_chunks
returns a result. -/
lemma pageToChunks_isSome (docId kind sourcePath : String) (pageNum : Nat)
    (pageText : String) (readingId : Option String) (target minChunkChars : Nat)
    (ht : 1 ≤ target) :
    (pageToChunks docId kind sourcePath pageNum pageText readingId target
      minChunkChars).isSome := by
  simp only [pageToChunks]
  split
  · rfl
  · exact pageToChunksLoop_isSome docId kind sourcePath pageNum readingId
      (pyStrip pageText.data) target minChunkChars ht
      (pyStrip pageText.data).length 0 [] (by omega)

theorem C10_termination (docId kind sourcePath : String) (pageNum : Nat)
    (pageText : String) (readingId : Option String) (target minChunkChars : Nat)
    (ht : 1 ≤ target) :
    (∀ start, start < (pyStrip pageText.data).length →
      start < windowEnd (pyStrip pageText.data) start target) ∧
    (pageToChunks docId kind sourcePath pageNum pageText readingId target
      minChunkChars).isSome := by
  constructor
  · intro s hs
    exact windowEnd_gt (pyStrip pageText.data) s target hs ht
  · exact pageToChunks_isSome docId kind sourcePath pageNum pageText readingId target
      minChunkChars ht

/-- C10 witness: termination at a concrete page and the default window
size. -/
theorem C10_termination_witness :
    (1 : Nat) ≤ 1800 ∧
    (pageToChunks "d" "official" "s.pdf" 1 "hello world" none 1800 50).isSome :=
  ⟨by decide,
   (C10_termination "d" "official" "s.pdf" 1 "hello world" none 1800 50 (by decide)).2⟩

/-- C7: the window-closing rule of the heuristic segmenter. First part,
for every window: either the accepted cut point is the qualifying
boundary position (newline or sentence-final punctuation) nearest to the
window end and lies past character 500, or the cut falls at the raw window
boundary and no qualifying boundary exists past character 500 of the
window; consequently, on a full window with a target beyond 500 the cut
point never lies before character 500. Second part: every chunk the
heuristic segmenter emits has its span closed exactly at windowEnd of its
window start. -/
theorem C7_cut_boundary :
    (∀ (text : List Char) (start target : Nat),
      ((∃ p, qualAt ((text.drop start).take (min text.length (start + target) - start)) p =
            true ∧
          500 < p ∧ windowEnd text start target = start + p ∧
          ∀ q, qualAt ((text.drop start).take (min text.length (start + target) - start)) q =
              true → q ≤ p) ∨
       (windowEnd text start target = min text.length (start + target) ∧
        ∀ p, 500 < p →
          qualAt ((text.drop start).take (min text.length (start + target) - start)) p =
            false)) ∧
      (start + target ≤ text.length → 500 < target →
        500 < windowEnd text start target - start)) ∧
    (∀ (docId kind sourcePath : String) (pageNum : Nat) (pageText : String)
        (readingId : Option String) (target minChunkChars : Nat) (cs : List Chunk)
        (c : Chunk),
      pageToChunks docId kind sourcePath pageNum pageText readingId target minChunkChars =
        some cs →
      c ∈ cs →
      c.span.end_char = windowEnd (pyStrip pageText.data) c.span.start_char target) := by
  constructor
  · intro text start target
    rcases windowEnd_cases text start target with ⟨hcut, he⟩ | ⟨hcut, he⟩
    · refine ⟨Or.inl ⟨(lastCut ((text.drop start).take
          (min text.length (start + target) - start))).toNat,
          lastCut_qual _ (by omega), by omega, he, fun q hq => ?_⟩,
        fun hfull ht => ?_⟩
      · have := lastCut_ge _ q hq
        omega
      · rw [he]
        omega
    · refine ⟨Or.inr ⟨he, fun p hp => ?_⟩, fun hfull ht => ?_⟩
      · cases hqp : qualAt ((text.drop start).take
            (min text.length (start + target) - start)) p
        · rfl
        · exfalso
          have := lastCut_ge _ p hqp
          omega
      · rw [he]
        omega
  · intro docId kind sourcePath pageNum pageText readingId target minChunkChars cs c hloop hc
    simp only [pageToChunks] at hloop
    split at hloop
    · obtain rfl := Option.some.inj hloop
      cases hc
    · exact pageToChunksLoop_forall docId kind sourcePath pageNum readingId
        (pyStrip pageText.data) target minChunkChars
        (fun c => c.span.end_char = windowEnd (pyStrip pageText.data) c.span.start_char target)
        (fun s => rfl) (pyStrip pageText.data).length 0 [] cs
        (fun c hc => absurd hc (List.not_mem_nil c)) hloop c hc

/-- C7 witness: on a concrete full window the cut point lies past
character 500. -/
theorem C7_cut_boundary_witness :
    ((0 : Nat) + 1800 ≤ c7DemoText.length ∧ (500 : Nat) < 1800) ∧
    500 < windowEnd c7DemoText 0 1800 - 0 :=
  ⟨⟨by simp only [c7DemoText, List.length_append, List.length_replicate,
      List.length_cons]; omega, by omega⟩,
   (C7_cut_boundary.1 c7DemoText 0 1800).2
     (by simp only [c7DemoText, List.length_append, List.length_replicate,
       List.length_cons]; omega)
     (by omega)⟩

/-- C8 counterexample: the page has extractable blocks, the assisted
strategy is requested (mode "all") and fails (the collaborator returns
nothing), a second classification profile "m-complex" is configured — yet
_process_page makes exactly one assisted attempt, with the base profile,
and falls back to the heuristic directly: the retry only ever happens when
the first attempt used the complex-page profile. -/
theorem C8_counterexample :
    c8Payload.blocks ≠ [] ∧
    processPage "d" "official" "p.pdf" true "all" "m-base" (some "m-complex") 1800 50
      (fun _ => none) c8Payload = (some (1, []), ["m-base"]) := by
  constructor
  · decide
  · decide

lemma isSome_ite_map {α β : Type} (C : Prop) [Decidable C] (x : Option α) (f : α → β)
    (y : β) (hx : x.isSome = true) :
    (if C then Option.map f x else some y).isSome = true := by
  split
  · simpa [Option.isSome_map] using hx
  · rfl

/-- C8 amended: the retry with the second classification profile happens
exactly on the pages whose first assisted attempt used the complex-page
profile (llm_model_complex, on a page flagged complex): (a) when that
first attempt fails or returns empty and the page has extractable blocks,
_page_to_chunks_llm is invoked a second time with the base profile; (b)
on a page not flagged complex the first attempt already uses the base
profile and a failed attempt falls back to the heuristic strategy directly
with no second assisted attempt; (c) with a positive target window the
page always yields a result, so one degraded page cannot fail the run. -/
theorem C8_amended_retry (docId kind pdfPath : String) (useLlm : Bool)
    (llmMode llmModel mC : String) (target minChunkChars : Nat)
    (llmResp : String → Option LlmPageSpec) (payload : PagePayload)
    (ht : 1 ≤ target) :
    ((useLlm && (llmMode == "all" || (llmMode == "vision-only" && payload.needs_vision))) =
        true →
      (mC ≠ "" && payload.complex_page) = true →
      mC ≠ llmModel →
      pageToChunksLlm docId kind pdfPath payload.page_num payload.blocks payload.page_size
        payload.reading_id minChunkChars (llmResp mC) = [] →
      payload.blocks ≠ [] →
      (processPage docId kind pdfPath useLlm llmMode llmModel (some mC) target
          minChunkChars llmResp payload).2 = [mC, llmModel]) ∧
    ((useLlm && (llmMode == "all" || (llmMode == "vision-only" && payload.needs_vision))) =
        true →
      (mC ≠ "" && payload.complex_page) = false →
      pageToChunksLlm docId kind pdfPath payload.page_num payload.blocks payload.page_size
        payload.reading_id minChunkChars (llmResp llmModel) = [] →
      (processPage docId kind pdfPath useLlm llmMode llmModel (some mC) target
          minChunkChars llmResp payload).2 = [llmModel] ∧
      (processPage docId kind pdfPath useLlm llmMode llmModel (some mC) target
          minChunkChars llmResp payload).1 =
        (pageToChunks docId kind pdfPath payload.page_num payload.text payload.reading_id
          target minChunkChars).map (fun cs => (payload.page_num, cs))) ∧
    (processPage docId kind pdfPath useLlm llmMode llmModel (some mC) target
      minChunkChars llmResp payload).1.isSome := by
  refine ⟨fun hu hcc hmne hf hb => ?_, fun hu hcc hf => ?_, ?_⟩
  · rw [Bool.and_eq_true, decide_eq_true_eq] at hcc
    simp only [processPage, hu, if_true]
    simp [hcc.1, hcc.2, hf, hb, hmne]
  · by_cases hemp : mC = ""
    · simp only [processPage, hu, if_true]
      simp [hemp, hf]
    · have hcp : payload.complex_page = false := by
        cases hcpv : payload.complex_page
        · rfl
        · rw [hcpv] at hcc
          simp [hemp] at hcc
      simp only [processPage, hu, if_true]
      simp [hcp, hf]
  · have hps := pageToChunks_isSome docId kind pdfPath payload.page_num payload.text
      payload.reading_id target minChunkChars ht
    simp only [processPage]
    exact isSome_ite_map _ _ _ _ hps

/-- C8 amended witness: on a concrete complex page whose assisted attempts
both fail, the two profiles are attempted in order. -/
theorem C8_amended_retry_witness :
    (processPage "d" "official" "p.pdf" true "all" "m" (some "M") 1800 50 (fun _ => none)
      c8ComplexPayload).2 = ["M", "m"] :=
  (C8_amended_retry "d" "official" "p.pdf" true "all" "m" "M" 1800 50 (fun _ => none)
    c8ComplexPayload (by decide)).1 (by decide) (by decide) (by decide) (by decide)
    (by decide)
